import Mathlib

/-!
Shallow embedding of the invoice QC validation engine
(`invoice_qc/validator.py` and `invoice_qc/utils.py`).

Records are mappings of optional fields; Python truthiness (`None`, `""`,
`0` are falsy) and the short-circuiting `or` operator are modelled
explicitly.  Monetary amounts are embedded as rationals.  Date parsing is
done in the source by the external `dateutil` library wrapped in
`try/except`; the embedding is parametric in a total parse function
`pd : String → Option Int` (an `Option`-valued calendar value), which is
exactly the interface the validator consumes.
-/

namespace InvoiceQC

/-- Python truthiness of an optional string: `None` and `""` are falsy. -/
def truthyS : Option String → Bool
  | none => false
  | some s => s ≠ ""

/-- Python truthiness of an optional rational: `None` and `0` are falsy. -/
def truthyQ : Option Rat → Bool
  | none => false
  | some q => q ≠ 0

/-- Python `a or b` on optional strings: returns `b` whenever `a` is falsy. -/
def pyOrS (a b : Option String) : Option String :=
  if truthyS a then a else b

/-- Python `a or b` on optional rationals: returns `b` whenever `a` is falsy. -/
def pyOrQ (a b : Option Rat) : Option Rat :=
  if truthyQ a then a else b

/-- A line item: `description`, `quantity`, `unit_price`,
`line_total`/`amount` (synonyms), all optional. -/
structure LineItem where
  description : Option String := none
  quantity : Option Rat := none
  unit_price : Option Rat := none
  line_total : Option Rat := none
  amount : Option Rat := none
deriving DecidableEq

/-- An invoice record: a mapping with every field optional.  This carries
every key read by `normalize_invoice` or by the validator; an absent key is
`none`.  `line_items` is a plain list: an absent key and an empty list are
indistinguishable to the code (`raw.get('line_items') or []`,
`invoice.get('line_items', [])`). -/
structure Invoice where
  invoice_id : Option String := none
  invoice_number : Option String := none
  invoice_date : Option String := none
  due_date : Option String := none
  seller_name : Option String := none
  supplier_name : Option String := none
  seller : Option String := none
  buyer_name : Option String := none
  buyer : Option String := none
  supplier_tax_id : Option String := none
  seller_tax_id : Option String := none
  buyer_tax_id : Option String := none
  currency : Option String := none
  net_total : Option Rat := none
  subtotal : Option Rat := none
  net : Option Rat := none
  tax_amount : Option Rat := none
  tax : Option Rat := none
  gross_total : Option Rat := none
  total_amount : Option Rat := none
  amount_due : Option Rat := none
  line_items : List LineItem := []
  raw_text : Option String := none
  source_file : Option String := none
deriving DecidableEq

/-- Result of `validate_invoice`: `{'invoice_id': ..., 'is_valid': ...,
'errors': [...]}`. -/
structure ValidationResult where
  invoice_id : String
  is_valid : Bool
  errors : List String
deriving DecidableEq

/-- Source `utils.normalize_invoice`: rebuild the record with canonical keys, each
synonym chain resolved by Python `or` in the source's precedence order. -/
def normalize_invoice (raw : Invoice) : Invoice :=
  let seller := pyOrS (pyOrS raw.seller_name raw.supplier_name) raw.seller
  let taxid := pyOrS raw.supplier_tax_id raw.seller_tax_id
  let netv := pyOrQ (pyOrQ raw.net_total raw.subtotal) raw.net
  let grossv := pyOrQ (pyOrQ raw.gross_total raw.total_amount) raw.amount_due
  { invoice_number := pyOrS raw.invoice_number raw.invoice_id
    invoice_date := raw.invoice_date
    due_date := raw.due_date
    seller_name := seller
    supplier_name := seller
    buyer_name := pyOrS raw.buyer_name raw.buyer
    supplier_tax_id := taxid
    seller_tax_id := taxid
    buyer_tax_id := raw.buyer_tax_id
    currency := raw.currency
    net_total := netv
    subtotal := netv
    tax_amount := pyOrQ raw.tax_amount raw.tax
    gross_total := grossv
    total_amount := grossv
    line_items := raw.line_items
    raw_text := raw.raw_text
    source_file := raw.source_file
    invoice_id := if truthyS raw.invoice_id then raw.invoice_id else none }

/-- Source `TOLERANCE_FACTOR = 0.005`. -/
def TOLERANCE_FACTOR : Rat := 5 / 1000

/-- Source `VALID_CURRENCIES`. -/
def VALID_CURRENCIES : List String :=
  ["EUR", "USD", "INR", "GBP", "JPY", "CAD", "AUD", "CHF", "CNY",
   "SGD", "HKD", "NZD", "MXN", "BRL", "ZAR"]

/-- Per-character normalization step of `_generate_invoice_id`:
`c if c.isalnum() or c in '-_' else '_'`. -/
def pyNormChar (c : Char) : Char :=
  if c.isAlphanum || c = '-' || c = '_' then c else '_'

/-- Python `str.split()` with no arguments, on a character list: split on
runs of whitespace, discarding empty pieces.  `acc` holds the current word
reversed. -/
def pySplitWsAux : List Char → List Char → List (List Char)
  | acc, [] => if acc = [] then [] else [acc.reverse]
  | acc, c :: cs =>
    if c.isWhitespace then
      if acc = [] then pySplitWsAux [] cs else acc.reverse :: pySplitWsAux [] cs
    else pySplitWsAux (c :: acc) cs

/-- Source `_generate_invoice_id`: fallback internal id
`{supplier}_{invoice_number}_{invoice_date}` with the supplier uppercased,
non-alphanumeric (other than `-`/`_`) characters replaced by `_`, then
split on whitespace and rejoined with `_`. -/
def _generate_invoice_id (inv : Invoice) : String :=
  let supplier : String :=
    if truthyS inv.supplier_name then inv.supplier_name.getD ""
    else if truthyS inv.seller_name then inv.seller_name.getD ""
    else "UNKNOWN"
  let invoiceNum : String :=
    if truthyS inv.invoice_number then inv.invoice_number.getD "" else "UNKNOWN"
  let invoiceDate : String :=
    if truthyS inv.invoice_date then inv.invoice_date.getD "" else "UNKNOWN"
  let supplierNorm : List Char := (supplier.data.map Char.toUpper).map pyNormChar
  let supplierNorm2 : List Char := List.intercalate ['_'] (pySplitWsAux [] supplierNorm)
  String.mk supplierNorm2 ++ "_" ++ invoiceNum ++ "_" ++ invoiceDate

/-- Source `_parse_date` applied to an optional string field, parametric in the
external parser `pd`: falsy input gives `None`, otherwise the parser's
result (the source's `try/except` is inside `pd`'s `Option`). -/
def _parse_date (pd : String → Option Int) (d : Option String) : Option Int :=
  if truthyS d then pd (d.getD "") else none

/-- Source `_is_within_tolerance`: `|a − b| <= max(|a|,|b|) * tolerance`, with an
explicit branch when `max(|a|,|b|) == 0`. -/
def _is_within_tolerance (value1 value2 : Rat) : Bool :=
  let diff := |value1 - value2|
  let maxVal := max |value1| |value2|
  if maxVal = 0 then diff = 0
  else diff ≤ maxVal * TOLERANCE_FACTOR

/-- Source `_validate_missing_fields`. -/
def _validate_missing_fields (inv : Invoice) : List String :=
  (if ¬ truthyS inv.invoice_number then ["missing_field:invoice_number"] else []) ++
  (if ¬ truthyS inv.invoice_date then ["missing_field:invoice_date"] else []) ++
  (if ¬ truthyS inv.seller_name ∧ ¬ truthyS inv.supplier_name then
    ["missing_field:seller_name"] else []) ++
  (if ¬ truthyS inv.buyer_name then ["missing_field:buyer_name"] else [])

/-- Source `_validate_format`. -/
def _validate_format (pd : String → Option Int) (inv : Invoice) : List String :=
  if truthyS inv.invoice_date then
    if (_parse_date pd inv.invoice_date).isNone then ["invalid_format:invoice_date"] else []
  else []

/-- Source `_validate_currency`. -/
def _validate_currency (inv : Invoice) : List String :=
  if truthyS inv.currency then
    if (inv.currency.getD "").toUpper ∉ VALID_CURRENCIES then ["invalid_value:currency"]
    else []
  else []

/-- Line-item total: `item.get('line_total') or item.get('amount') or 0.0`. -/
def lineTotalOf (it : LineItem) : Rat :=
  (pyOrQ it.line_total it.amount).getD 0

/-- The `line_sum` accumulation loop: add `line_total` when truthy. -/
def lineSum (items : List LineItem) : Rat :=
  items.foldl (fun acc it => if lineTotalOf it ≠ 0 then acc + lineTotalOf it else acc) 0

/-- Source `_validate_business_rules`: totals mismatch, line-sum mismatch,
due-before-invoice. -/
def _validate_business_rules (pd : String → Option Int) (inv : Invoice) : List String :=
  let net_total := pyOrQ inv.net_total inv.subtotal
  let tax_amount := inv.tax_amount
  let gross_total := pyOrQ inv.gross_total inv.total_amount
  (match net_total, tax_amount, gross_total with
   | some netv, some taxv, some grossv =>
     if ¬ _is_within_tolerance grossv (netv + taxv) then ["business_rule:totals_mismatch"]
     else []
   | _, _, _ => []) ++
  (match inv.line_items, net_total with
   | [], _ => []
   | _, none => []
   | items, some netv =>
     if lineSum items > 0 ∧ ¬ _is_within_tolerance netv (lineSum items) then
       ["business_rule:linesum_mismatch"]
     else []) ++
  (if truthyS inv.invoice_date ∧ truthyS inv.due_date then
    match _parse_date pd inv.invoice_date, _parse_date pd inv.due_date with
    | some di, some dd => if dd < di then ["business_rule:due_before_invoice"] else []
    | _, _ => []
  else [])

/-- Source `_validate_sanity_checks`: negative gross. -/
def _validate_sanity_checks (inv : Invoice) : List String :=
  match pyOrQ inv.gross_total inv.total_amount with
  | some g => if g < 0 then ["sanity:negative_gross"] else []
  | none => []

/-- Source `validate_invoice`: id derivation plus the five rule families, errors
collected in source order. -/
def validate_invoice (pd : String → Option Int) (inv : Invoice) : ValidationResult :=
  let invoiceId : String :=
    if truthyS inv.invoice_id then inv.invoice_id.getD "" else _generate_invoice_id inv
  let errors : List String :=
    _validate_missing_fields inv ++ _validate_format pd inv ++
    _validate_currency inv ++ _validate_business_rules pd inv ++
    _validate_sanity_checks inv
  { invoice_id := invoiceId
    is_valid := errors.length = 0
    errors := errors }

/-- Duplicate-detection grouping key:
`(str(invoice_number), str(supplier_tax_id or seller_tax_id or ''), str(invoice_date or ''))`. -/
abbrev Key := String × String × String

/-- The key computed in the `_detect_duplicates` / `validate_batch` loops:
`some` exactly when `invoice_number` is truthy. -/
def dupKeyOf (inv : Invoice) : Option Key :=
  if truthyS inv.invoice_number then
    some (inv.invoice_number.getD "",
          (pyOrS inv.supplier_tax_id inv.seller_tax_id).getD "",
          inv.invoice_date.getD "")
  else none

/-- State of the `_detect_duplicates` loop: the `seen` dict (key → first
index), the `duplicates` dict (key → all indices), and the insertion order
of the `duplicates` dict's keys (for `len(duplicate_map)`). -/
structure DupState where
  seen : Key → Option Nat
  dupMap : Key → Option (List Nat)
  dupKeys : List Key

/-- Initial (empty) dictionaries. -/
def initDupState : DupState :=
  { seen := fun _ => none, dupMap := fun _ => none, dupKeys := [] }

/-- One iteration of the `_detect_duplicates` loop at index `idx`. -/
def dupStep (s : DupState) (idx : Nat) (inv : Invoice) : DupState :=
  match dupKeyOf inv with
  | none => s
  | some k =>
    match s.seen k with
    | some first =>
      let m : Key → Option (List Nat) :=
        match s.dupMap k with
        | none => fun k2 => if k2 = k then some [first] else s.dupMap k2
        | some _ => s.dupMap
      let ks : List Key :=
        match s.dupMap k with
        | none => s.dupKeys ++ [k]
        | some _ => s.dupKeys
      { seen := s.seen
        dupMap := fun k2 => if k2 = k then some ((m k).getD [] ++ [idx]) else m k2
        dupKeys := ks }
    | none =>
      { s with seen := fun k2 => if k2 = k then some idx else s.seen k2 }

/-- Python `enumerate` starting at `n`. -/
def enumF (n : Nat) : List Invoice → List (Nat × Invoice)
  | [] => []
  | a :: as => (n, a) :: enumF (n + 1) as

/-- Source `_detect_duplicates`. -/
def _detect_duplicates (invoices : List Invoice) : DupState :=
  (enumF 0 invoices).foldl (fun s p => dupStep s p.1 p.2) initDupState

/-- The batch summary dict.  `error_counts` is the counting dict as a
function (only its values are consumed by the claims). -/
structure Summary where
  total_invoices : Nat
  valid_count : Nat
  invalid_count : Nat
  error_counts : String → Nat
  duplicate_groups : Nat

/-- Result of `validate_batch`. -/
structure BatchResult where
  per_invoice : List ValidationResult
  summary : Summary

/-- The body of the per-invoice loop of `validate_batch`: single-invoice
validation, then the duplicate anomaly when `idx` is a member of the
duplicate map entry for this invoice's key. -/
def batchResultAt (pd : String → Option Int) (dm : DupState) (idx : Nat)
    (inv : Invoice) : ValidationResult :=
  let r := validate_invoice pd inv
  match dupKeyOf inv with
  | none => r
  | some k =>
    match dm.dupMap k with
    | none => r
    | some lst =>
      if idx ∈ lst then
        { r with errors := r.errors ++ ["anomaly:duplicate_invoice"], is_valid := false }
      else r

/-- The `error_counts` accumulation: one increment per token occurrence. -/
def errorCounts (per : List ValidationResult) : String → Nat :=
  per.foldl
    (fun counts r =>
      r.errors.foldl (fun cs e => fun e2 => if e2 = e then cs e + 1 else cs e2) counts)
    (fun _ => 0)

/-- Source `validate_batch`. -/
def validate_batch (pd : String → Option Int) (invoices : List Invoice) : BatchResult :=
  let dm := _detect_duplicates invoices
  let per := (enumF 0 invoices).map (fun p => batchResultAt pd dm p.1 p.2)
  let total := invoices.length
  let validCount := per.countP (fun r => r.is_valid)
  { per_invoice := per
    summary :=
      { total_invoices := total
        valid_count := validCount
        invalid_count := total - validCount
        error_counts := errorCounts per
        duplicate_groups := dm.dupKeys.length } }

/-! ### Spec-side definitions and concrete inputs -/

/-- A date parser that fails on every string (a legitimate instance of the
external parser interface, used for concrete evaluations). -/
def pdNone : String → Option Int := fun _ => none

/-- The occurrence indices of duplicate key `k` in an enumerated batch
prefix, in order. -/
def occs (l : List (Nat × Invoice)) (k : Key) : List Nat :=
  l.filterMap (fun p => if dupKeyOf p.2 = some k then some p.1 else none)

/-- Number of invoices of the batch whose duplicate key is `k`. -/
def keyCount (invs : List Invoice) (k : Key) : Nat :=
  invs.countP (fun i => decide (dupKeyOf i = some k))

/-- Spec-side count of duplicate groups: the number of distinct duplicate
keys shared by at least two invoices of the batch. -/
def specDuplicateGroups (invs : List Invoice) : Nat :=
  ((invs.filterMap dupKeyOf).dedup.filter (fun k => decide (2 ≤ keyCount invs k))).length

/-- The complete vocabulary of error tokens the engine can emit. -/
def tokenVocab : List String :=
  ["missing_field:invoice_number", "missing_field:invoice_date",
   "missing_field:seller_name", "missing_field:buyer_name",
   "invalid_format:invoice_date", "invalid_value:currency",
   "business_rule:totals_mismatch", "business_rule:linesum_mismatch",
   "business_rule:due_before_invoice", "sanity:negative_gross",
   "anomaly:duplicate_invoice"]

/-- Spec-side invoice-id derivation per the amended claim: supplier name
uppercased and then EVERY character that is not alphanumeric, hyphen or
underscore — including each individual whitespace character — replaced by
an underscore (runs of whitespace become runs of underscores, they are not
collapsed); missing components replaced by `UNKNOWN`. -/
def specGenerateId (inv : Invoice) : String :=
  let supplier : String :=
    if truthyS inv.supplier_name then inv.supplier_name.getD ""
    else if truthyS inv.seller_name then inv.seller_name.getD ""
    else "UNKNOWN"
  let invoiceNum : String :=
    if truthyS inv.invoice_number then inv.invoice_number.getD "" else "UNKNOWN"
  let invoiceDate : String :=
    if truthyS inv.invoice_date then inv.invoice_date.getD "" else "UNKNOWN"
  String.mk ((supplier.data.map Char.toUpper).map pyNormChar) ++ "_" ++
    invoiceNum ++ "_" ++ invoiceDate

/-- Loop invariant of `_detect_duplicates` after processing the enumerated
prefix `l`: `seen` holds each key's first occurrence index, `duplicates`
holds exactly the keys occurring at least twice, mapped to all their
occurrence indices in order, and its key list is duplicate-free with the
same membership. -/
structure DupInv (l : List (Nat × Invoice)) (s : DupState) : Prop where
  seen_eq : ∀ k, s.seen k = (occs l k).head?
  dup_eq : ∀ k, s.dupMap k = if 2 ≤ (occs l k).length then some (occs l k) else none
  keys_nodup : s.dupKeys.Nodup
  mem_keys : ∀ k, k ∈ s.dupKeys ↔ 2 ≤ (occs l k).length

/-- Record with net 100, tax 10 and a given gross total. -/
def totRec (g : Rat) : Invoice :=
  { net_total := some 100, tax_amount := some 10, gross_total := some g }

/-- Concrete duplicated invoice (number, supplier tax id, date). -/
def dupRec : Invoice :=
  { invoice_number := some "INV-1", supplier_tax_id := some "TAX1",
    invoice_date := some "2024-01-01" }

/-- The first per-invoice result of the concrete duplicate batch. -/
def dupRecResult0 : ValidationResult :=
  ((validate_batch pdNone [dupRec, dupRec]).per_invoice.get? 0).getD ⟨"", true, []⟩

/-- Supplier name with an interior run of two spaces ("Acme  Corp"). -/
def acmeRec : Invoice :=
  { supplier_name := some "Acme  Corp", invoice_number := some "INV-9",
    invoice_date := some "2024-01-01" }

/-- Record with two-character supplier name and nothing else. -/
def abRec : Invoice := { seller_name := some "A B" }

/-- Record carrying only an `invoice_id`. -/
def idOnlyRec : Invoice := { invoice_id := some "ID-7" }

/-- The sole per-invoice result of the batch holding one empty record. -/
def emptyBatchRes0 : ValidationResult :=
  ((validate_batch pdNone [{}]).per_invoice.get? 0).getD ⟨"", true, []⟩

/-- Every field of the record absent or empty: string fields falsy (absent
or `""`), numeric fields absent, no line items. -/
def EmptyRecord (inv : Invoice) : Prop :=
  truthyS inv.invoice_id = false ∧ truthyS inv.invoice_number = false ∧
  truthyS inv.invoice_date = false ∧ truthyS inv.due_date = false ∧
  truthyS inv.seller_name = false ∧ truthyS inv.supplier_name = false ∧
  truthyS inv.seller = false ∧ truthyS inv.buyer_name = false ∧
  truthyS inv.buyer = false ∧ truthyS inv.supplier_tax_id = false ∧
  truthyS inv.seller_tax_id = false ∧ truthyS inv.buyer_tax_id = false ∧
  truthyS inv.currency = false ∧ inv.net_total = none ∧ inv.subtotal = none ∧
  inv.net = none ∧ inv.tax_amount = none ∧ inv.tax = none ∧
  inv.gross_total = none ∧ inv.total_amount = none ∧ inv.amount_due = none ∧
  inv.line_items = [] ∧ truthyS inv.raw_text = false ∧ truthyS inv.source_file = false

/-! ### Helper lemmas -/

theorem mem_missing_fields {inv : Invoice} {e : String}
    (he : e ∈ _validate_missing_fields inv) :
    e ∈ ["missing_field:invoice_number", "missing_field:invoice_date",
         "missing_field:seller_name", "missing_field:buyer_name"] := by
  unfold _validate_missing_fields at he
  split_ifs at he <;> simp_all <;> tauto

theorem mem_format {pd : String → Option Int} {inv : Invoice} {e : String}
    (he : e ∈ _validate_format pd inv) : e = "invalid_format:invoice_date" := by
  unfold _validate_format at he
  split_ifs at he <;> simp_all

theorem mem_currency {inv : Invoice} {e : String}
    (he : e ∈ _validate_currency inv) : e = "invalid_value:currency" := by
  unfold _validate_currency at he
  split_ifs at he <;> simp_all

theorem mem_business_rules {pd : String → Option Int} {inv : Invoice} {e : String}
    (he : e ∈ _validate_business_rules pd inv) :
    e ∈ ["business_rule:totals_mismatch", "business_rule:linesum_mismatch",
         "business_rule:due_before_invoice"] := by
  unfold _validate_business_rules at he
  simp only [List.mem_append] at he
  rcases he with (h | h) | h <;>
    · split at h <;> (try split_ifs at h) <;>
      (try split at h) <;> (try split_ifs at h) <;> simp_all

theorem mem_sanity {inv : Invoice} {e : String}
    (he : e ∈ _validate_sanity_checks inv) : e = "sanity:negative_gross" := by
  unfold _validate_sanity_checks at he
  split at he <;> (try split_ifs at he) <;> simp_all

theorem mem_validate_invoice {pd : String → Option Int} {inv : Invoice} {e : String}
    (he : e ∈ (validate_invoice pd inv).errors) :
    e ∈ ["missing_field:invoice_number", "missing_field:invoice_date",
         "missing_field:seller_name", "missing_field:buyer_name",
         "invalid_format:invoice_date", "invalid_value:currency",
         "business_rule:totals_mismatch", "business_rule:linesum_mismatch",
         "business_rule:due_before_invoice", "sanity:negative_gross"] := by
  simp only [validate_invoice, List.mem_append] at he
  rcases he with (((h | h) | h) | h) | h
  · have := mem_missing_fields h; simp_all; tauto
  · have := mem_format h; simp_all
  · have := mem_currency h; simp_all
  · have := mem_business_rules h; simp_all; tauto
  · have := mem_sanity h; simp_all

theorem dup_notMem_validate_invoice (pd : String → Option Int) (inv : Invoice) :
    "anomaly:duplicate_invoice" ∉ (validate_invoice pd inv).errors := by
  intro he
  have := mem_validate_invoice he
  simp_all

theorem validate_invoice_valid_iff (pd : String → Option Int) (inv : Invoice) :
    (validate_invoice pd inv).is_valid = true ↔ (validate_invoice pd inv).errors = [] := by
  simp [validate_invoice, List.length_eq_zero]

@[simp] theorem truthyS_none : truthyS none = false := rfl

@[simp] theorem truthyQ_none : truthyQ none = false := rfl

theorem tol_iff (a b : Rat) :
    _is_within_tolerance a b = true ↔ |a - b| ≤ max |a| |b| * (5 / 1000) := by
  simp only [_is_within_tolerance, TOLERANCE_FACTOR]
  split_ifs with h
  · simp only [decide_eq_true_eq, h, zero_mul]
    exact ⟨le_of_eq, fun h2 => le_antisymm h2 (abs_nonneg _)⟩
  · simp

theorem tol_11055_holds : _is_within_tolerance (2211 / 20 : Rat) 110 = true := by
  rw [tol_iff]
  rw [abs_of_pos (by norm_num), abs_of_pos (by norm_num), abs_of_pos (by norm_num)]
  rw [max_eq_left (by norm_num)]
  norm_num

theorem tol_11056_fails : _is_within_tolerance (2764 / 25 : Rat) 110 = false := by
  rcases Bool.eq_false_or_eq_true (_is_within_tolerance (2764 / 25 : Rat) 110) with h | h
  · exfalso
    have h2 := (tol_iff (2764 / 25 : Rat) 110).1 h
    rw [abs_of_pos (by norm_num), abs_of_pos (by norm_num),
        abs_of_pos (by norm_num)] at h2
    rw [max_eq_left (by norm_num)] at h2
    norm_num at h2
  · exact h

theorem pyNormChar_not_ws (c : Char) : (pyNormChar c).isWhitespace = false := by
  unfold pyNormChar
  split_ifs with h
  · cases hw : c.isWhitespace
    · rfl
    · exfalso
      have h4 : c = ' ' ∨ c = '\t' ∨ c = '\r' ∨ c = '\n' := by
        simp only [Char.isWhitespace, Bool.or_eq_true, decide_eq_true_eq] at hw
        tauto
      rcases h4 with rfl | rfl | rfl | rfl <;> exact absurd h (by decide)
  · decide

theorem mapped_no_ws (s : String) :
    ∀ c ∈ (s.data.map Char.toUpper).map pyNormChar, c.isWhitespace = false := by
  intro c hc
  obtain ⟨d, _, rfl⟩ := List.mem_map.1 hc
  exact pyNormChar_not_ws d

theorem pySplitWsAux_no_ws (l : List Char) (acc : List Char)
    (h : ∀ c ∈ l, c.isWhitespace = false) :
    pySplitWsAux acc l = if acc = [] ∧ l = [] then [] else [acc.reverse ++ l] := by
  induction l generalizing acc with
  | nil => simp [pySplitWsAux]
  | cons c cs ih =>
    have hc : c.isWhitespace = false := h c (by simp)
    have h' : ∀ x ∈ cs, x.isWhitespace = false := fun x hx => h x (by simp [hx])
    simp only [pySplitWsAux, hc, Bool.false_eq_true, if_false]
    rw [ih (c :: acc) h']
    simp

theorem intercalate_pySplitWs (l : List Char)
    (h : ∀ c ∈ l, c.isWhitespace = false) :
    List.intercalate ['_'] (pySplitWsAux [] l) = l := by
  rcases eq_or_ne l [] with hl | hl
  · subst hl
    simp [pySplitWsAux, List.intercalate]
  · rw [pySplitWsAux_no_ws l [] h]
    simp [hl, List.intercalate, List.intersperse]

theorem generate_id_eq_spec (inv : Invoice) :
    _generate_invoice_id inv = specGenerateId inv := by
  simp only [_generate_invoice_id, specGenerateId]
  rw [intercalate_pySplitWs _ (mapped_no_ws _)]

/-- C2: the tolerance check used by `totals_mismatch` and
`linesum_mismatch` holds iff `|a − b| ≤ max(|a|,|b|) * 0.005`, boundary
inclusive; when both values are exactly zero only a difference of exactly 0
passes; a record with net 100, tax 10 and gross 110.55 gets no
`business_rule:totals_mismatch` token, while gross 110.56 gets one. -/
theorem tolerance_check_spec :
    (∀ a b : Rat, _is_within_tolerance a b = true ↔
      |a - b| ≤ max |a| |b| * (5 / 1000)) ∧
    (∀ a b : Rat, a = 0 → b = 0 →
      (_is_within_tolerance a b = true ↔ a - b = 0)) ∧
    (∀ pd, "business_rule:totals_mismatch" ∉
      (validate_invoice pd (totRec (110.55 : Rat))).errors) ∧
    (∀ pd, "business_rule:totals_mismatch" ∈
      (validate_invoice pd (totRec (110.56 : Rat))).errors) := by
  refine ⟨tol_iff, fun a b ha hb => ?_, fun pd => ?_, fun pd => ?_⟩
  · subst ha; subst hb
    rw [tol_iff]
    constructor
    · intro _; norm_num
    · intro _; simp
  · have herr : (validate_invoice pd (totRec (110.55 : Rat))).errors =
        ["missing_field:invoice_number", "missing_field:invoice_date",
         "missing_field:seller_name", "missing_field:buyer_name"] := by
      norm_num [validate_invoice, _validate_missing_fields, _validate_format,
        _validate_currency, _validate_business_rules, _validate_sanity_checks,
        totRec, pyOrQ, truthyQ, tol_11055_holds]
    rw [herr]; decide
  · have herr : (validate_invoice pd (totRec (110.56 : Rat))).errors =
        ["missing_field:invoice_number", "missing_field:invoice_date",
         "missing_field:seller_name", "missing_field:buyer_name",
         "business_rule:totals_mismatch"] := by
      norm_num [validate_invoice, _validate_missing_fields, _validate_format,
        _validate_currency, _validate_business_rules, _validate_sanity_checks,
        totRec, pyOrQ, truthyQ, tol_11056_fails]
    rw [herr]; decide

/-- C2 witness: the zero-zero clause instantiated at `a = b = 0`. -/
theorem tolerance_check_spec_witness :
    _is_within_tolerance 0 0 = true ↔ (0 : Rat) - 0 = 0 :=
  tolerance_check_spec.2.1 0 0 rfl rfl

/-- C3: a record expressing a name/net/gross via the synonym keys
`supplier_name`/`subtotal`/`total_amount` yields, after normalization, a
`ValidationResult` identical to one expressing the same data via
`seller_name`/`net_total`/`gross_total` — for every parser, every value of
the three data items (zero included) and every assignment of the remaining
fields. -/
theorem synonym_equivalence (pd : String → Option Int) (namev : Option String)
    (netv grossv : Option Rat) (r : Invoice) :
    validate_invoice pd (normalize_invoice
      { r with supplier_name := namev, seller_name := none,
               subtotal := netv, net_total := none,
               total_amount := grossv, gross_total := none }) =
    validate_invoice pd (normalize_invoice
      { r with seller_name := namev, supplier_name := none,
               net_total := netv, subtotal := none,
               gross_total := grossv, total_amount := none }) := by
  have h : normalize_invoice
      { r with supplier_name := namev, seller_name := none,
               subtotal := netv, net_total := none,
               total_amount := grossv, gross_total := none } =
      normalize_invoice
      { r with seller_name := namev, supplier_name := none,
               net_total := netv, subtotal := none,
               gross_total := grossv, total_amount := none } := by
    unfold normalize_invoice
    by_cases hn : truthyS namev <;> by_cases h1 : truthyQ netv <;>
      by_cases h2 : truthyQ grossv <;>
      simp [pyOrS, pyOrQ, hn, h1, h2]
  rw [h]

/-- C6: a record whose fields are all absent or empty yields exactly the
four missing-field tokens, in source order, and nothing else. -/
theorem empty_record_errors (pd : String → Option Int) (inv : Invoice)
    (h : EmptyRecord inv) :
    (validate_invoice pd inv).errors =
      ["missing_field:invoice_number", "missing_field:invoice_date",
       "missing_field:seller_name", "missing_field:buyer_name"] := by
  obtain ⟨h1, h2, h3, h4, h5, h6, h7, h8, h9, h10, h11, h12, h13, h14, h15,
    h16, h17, h18, h19, h20, h21, h22, h23, h24⟩ := h
  simp [validate_invoice, _validate_missing_fields, _validate_format,
    _validate_currency, _validate_business_rules, _validate_sanity_checks,
    pyOrQ, truthyQ, h2, h3, h4, h5, h6, h8, h13, h14, h15, h17, h19, h20, h22]

/-- C6 witness: the all-absent record. -/
theorem empty_record_errors_witness :
    (validate_invoice pdNone {}).errors =
      ["missing_field:invoice_number", "missing_field:invoice_date",
       "missing_field:seller_name", "missing_field:buyer_name"] :=
  empty_record_errors pdNone {}
    ⟨rfl, rfl, rfl, rfl, rfl, rfl, rfl, rfl, rfl, rfl, rfl, rfl, rfl, rfl,
     rfl, rfl, rfl, rfl, rfl, rfl, rfl, rfl, rfl, rfl⟩

/-- C9 counterexample: with supplier name `"Acme  Corp"` (two spaces) the
derived id's supplier part is `ACME__CORP` — two underscores, not the
single collapsed underscore the claim states. -/
theorem invoice_id_whitespace_counterexample :
    (validate_invoice pdNone acmeRec).invoice_id = "ACME__CORP_INV-9_2024-01-01" ∧
    (validate_invoice pdNone acmeRec).invoice_id ≠ "ACME_CORP_INV-9_2024-01-01" := by
  constructor
  · rfl
  · decide

/-- C9 as amended: when `invoice_id` is absent or empty, the derived id is
`{supplier}_{invoice_number}_{invoice_date}` with the supplier uppercased
and every character that is not alphanumeric, hyphen or underscore —
including each individual whitespace character — replaced by its own
underscore (runs of whitespace are NOT collapsed), and missing components
replaced by `UNKNOWN`. -/
theorem invoice_id_derivation_amended (pd : String → Option Int) (inv : Invoice)
    (h : truthyS inv.invoice_id = false) :
    (validate_invoice pd inv).invoice_id = specGenerateId inv := by
  simp only [validate_invoice, h, Bool.false_eq_true, if_false]
  exact generate_id_eq_spec inv

/-- C9 witness: supplier `"A B"`, everything else absent. -/
theorem invoice_id_derivation_amended_witness :
    (validate_invoice pdNone abRec).invoice_id = "A_B_UNKNOWN_UNKNOWN" := by
  rw [invoice_id_derivation_amended pdNone abRec rfl]
  decide

/-- C10: `normalize_invoice` falls back to `invoice_id` for the output
`invoice_number`; a record with a truthy `invoice_id` and no truthy
`invoice_number` normalizes to a record that carries the id as its invoice
number, is never given `missing_field:invoice_number`, and participates in
duplicate detection (its duplicate key is computed). -/
theorem invoice_number_id_fallback (pd : String → Option Int) (raw : Invoice)
    (hno : truthyS raw.invoice_number = false)
    (hid : truthyS raw.invoice_id = true) :
    (normalize_invoice raw).invoice_number = raw.invoice_id ∧
    "missing_field:invoice_number" ∉
      (validate_invoice pd (normalize_invoice raw)).errors ∧
    (dupKeyOf (normalize_invoice raw)).isSome = true := by
  have hnum : (normalize_invoice raw).invoice_number = raw.invoice_id := by
    simp [normalize_invoice, pyOrS, hno]
  have htr : truthyS (normalize_invoice raw).invoice_number = true := by
    rw [hnum]; exact hid
  refine ⟨hnum, ?_, ?_⟩
  · intro he
    simp only [validate_invoice, List.mem_append] at he
    rcases he with (((h | h) | h) | h) | h
    · unfold _validate_missing_fields at h
      rw [htr] at h
      split_ifs at h <;> simp_all
    · exact absurd (mem_format h) (by decide)
    · exact absurd (mem_currency h) (by decide)
    · have := mem_business_rules h; simp_all
    · exact absurd (mem_sanity h) (by decide)
  · simp [dupKeyOf, htr]

/-- C10 witness: a record carrying only `invoice_id = "ID-7"`. -/
theorem invoice_number_id_fallback_witness :
    (normalize_invoice idOnlyRec).invoice_number = idOnlyRec.invoice_id ∧
    "missing_field:invoice_number" ∉
      (validate_invoice pdNone (normalize_invoice idOnlyRec)).errors ∧
    (dupKeyOf (normalize_invoice idOnlyRec)).isSome = true :=
  invoice_number_id_fallback pdNone idOnlyRec rfl (by decide)

/-! ### Duplicate-detection loop invariant -/

theorem occs_append (l : List (Nat × Invoice)) (p : Nat × Invoice) (k : Key) :
    occs (l ++ [p]) k =
      occs l k ++ (if dupKeyOf p.2 = some k then [p.1] else []) := by
  unfold occs
  rw [List.filterMap_append]
  congr 1
  rw [List.filterMap_cons]
  split_ifs with h <;> simp [h]

theorem occs_enumF_cons (n : Nat) (a : Invoice) (as : List Invoice) (k : Key) :
    occs (enumF n (a :: as)) k =
      (if dupKeyOf a = some k then [n] else []) ++ occs (enumF (n + 1) as) k := by
  show occs ((n, a) :: enumF (n + 1) as) k = _
  unfold occs
  rw [List.filterMap_cons]
  split_ifs with h <;> simp [h]

theorem occs_enumF_length (k : Key) (invs : List Invoice) :
    ∀ n : Nat, (occs (enumF n invs) k).length = keyCount invs k := by
  induction invs with
  | nil => intro n; simp [occs, enumF, keyCount]
  | cons a as ih =>
    intro n
    rw [occs_enumF_cons]
    simp only [keyCount, List.countP_cons]
    by_cases h : dupKeyOf a = some k <;>
      simp [h, ih (n + 1), keyCount]

theorem mem_occs_enumF {k : Key} (invs : List Invoice) :
    ∀ (n i : Nat) (inv : Invoice), invs.get? i = some inv →
      dupKeyOf inv = some k → (n + i) ∈ occs (enumF n invs) k := by
  induction invs with
  | nil => intro n i inv h; simp at h
  | cons a as ih =>
    intro n i inv h hk
    rw [occs_enumF_cons]
    cases i with
    | zero =>
      simp only [List.get?] at h
      injection h with h
      subst h
      simp [hk]
    | succ j =>
      simp only [List.get?] at h
      have hmem := ih (n + 1) j inv h hk
      have harith : n + (j + 1) = (n + 1) + j := by omega
      rw [harith]
      simp [hmem]

theorem dupInv_init : DupInv [] initDupState :=
  ⟨fun _ => rfl, fun k => by simp [initDupState, occs], List.nodup_nil,
   fun k => by simp [initDupState, occs]⟩

theorem dupStep_none_eq {s : DupState} {idx : Nat} {inv : Invoice}
    (hk : dupKeyOf inv = none) : dupStep s idx inv = s := by
  simp [dupStep, hk]

theorem dupStep_new_seen {s : DupState} {idx : Nat} {inv : Invoice} {k0 : Key}
    (hk : dupKeyOf inv = some k0) (hs : s.seen k0 = none) (k : Key) :
    (dupStep s idx inv).seen k = if k = k0 then some idx else s.seen k := by
  simp [dupStep, hk, hs]

theorem dupStep_new_dupMap {s : DupState} {idx : Nat} {inv : Invoice} {k0 : Key}
    (hk : dupKeyOf inv = some k0) (hs : s.seen k0 = none) :
    (dupStep s idx inv).dupMap = s.dupMap := by
  simp [dupStep, hk, hs]

theorem dupStep_new_keys {s : DupState} {idx : Nat} {inv : Invoice} {k0 : Key}
    (hk : dupKeyOf inv = some k0) (hs : s.seen k0 = none) :
    (dupStep s idx inv).dupKeys = s.dupKeys := by
  simp [dupStep, hk, hs]

theorem dupStep_snd_seen {s : DupState} {idx : Nat} {inv : Invoice} {k0 : Key}
    {first : Nat} (hk : dupKeyOf inv = some k0) (hs : s.seen k0 = some first)
    (hd : s.dupMap k0 = none) :
    (dupStep s idx inv).seen = s.seen := by
  simp [dupStep, hk, hs, hd]

theorem dupStep_snd_dupMap {s : DupState} {idx : Nat} {inv : Invoice} {k0 : Key}
    {first : Nat} (hk : dupKeyOf inv = some k0) (hs : s.seen k0 = some first)
    (hd : s.dupMap k0 = none) (k : Key) :
    (dupStep s idx inv).dupMap k =
      if k = k0 then some [first, idx] else s.dupMap k := by
  by_cases hkk : k = k0 <;> simp [dupStep, hk, hs, hd, hkk]

theorem dupStep_snd_keys {s : DupState} {idx : Nat} {inv : Invoice} {k0 : Key}
    {first : Nat} (hk : dupKeyOf inv = some k0) (hs : s.seen k0 = some first)
    (hd : s.dupMap k0 = none) :
    (dupStep s idx inv).dupKeys = s.dupKeys ++ [k0] := by
  simp [dupStep, hk, hs, hd]

theorem dupStep_more_seen {s : DupState} {idx : Nat} {inv : Invoice} {k0 : Key}
    {first : Nat} {lst : List Nat} (hk : dupKeyOf inv = some k0)
    (hs : s.seen k0 = some first) (hd : s.dupMap k0 = some lst) :
    (dupStep s idx inv).seen = s.seen := by
  simp [dupStep, hk, hs, hd]

theorem dupStep_more_dupMap {s : DupState} {idx : Nat} {inv : Invoice} {k0 : Key}
    {first : Nat} {lst : List Nat} (hk : dupKeyOf inv = some k0)
    (hs : s.seen k0 = some first) (hd : s.dupMap k0 = some lst) (k : Key) :
    (dupStep s idx inv).dupMap k =
      if k = k0 then some (lst ++ [idx]) else s.dupMap k := by
  by_cases hkk : k = k0 <;> simp [dupStep, hk, hs, hd, hkk]

theorem dupStep_more_keys {s : DupState} {idx : Nat} {inv : Invoice} {k0 : Key}
    {first : Nat} {lst : List Nat} (hk : dupKeyOf inv = some k0)
    (hs : s.seen k0 = some first) (hd : s.dupMap k0 = some lst) :
    (dupStep s idx inv).dupKeys = s.dupKeys := by
  simp [dupStep, hk, hs, hd]

theorem dupStep_inv {l : List (Nat × Invoice)} {s : DupState} (h : DupInv l s)
    (idx : Nat) (inv : Invoice) :
    DupInv (l ++ [(idx, inv)]) (dupStep s idx inv) := by
  obtain ⟨hseen, hdup, hnd, hmem⟩ := h
  cases hk : dupKeyOf inv with
  | none =>
    have hocc : ∀ k, occs (l ++ [(idx, inv)]) k = occs l k := by
      intro k; rw [occs_append]; simp [hk]
    rw [dupStep_none_eq hk]
    exact ⟨fun k => by rw [hocc]; exact hseen k,
           fun k => by rw [hocc]; exact hdup k,
           hnd, fun k => by rw [hocc]; exact hmem k⟩
  | some k0 =>
    have hocc : ∀ k, occs (l ++ [(idx, inv)]) k =
        occs l k ++ (if k = k0 then [idx] else []) := by
      intro k
      rw [occs_append]
      by_cases hkk : k = k0
      · subst hkk; simp [hk]
      · have hkk2 : k0 ≠ k := fun he => hkk he.symm
        simp [hk, hkk, hkk2]
    cases hs : s.seen k0 with
    | none =>
      have h0 : occs l k0 = [] :=
        List.head?_eq_none_iff.1 ((hseen k0).symm.trans hs)
      refine ⟨fun k => ?_, fun k => ?_, ?_, fun k => ?_⟩
      · rw [dupStep_new_seen hk hs, hocc]
        by_cases hkk : k = k0
        · subst hkk; simp [h0]
        · simp [hkk, hseen k]
      · rw [dupStep_new_dupMap hk hs, hocc]
        by_cases hkk : k = k0
        · subst hkk
          have hd := hdup k
          rw [h0] at hd
          simp at hd
          simp [h0, hd]
        · simp [hkk, hdup k]
      · rw [dupStep_new_keys hk hs]; exact hnd
      · rw [dupStep_new_keys hk hs, hocc, hmem k]
        by_cases hkk : k = k0
        · subst hkk; simp [h0]
        · simp [hkk]
    | some first =>
      have hhead : (occs l k0).head? = some first := (hseen k0).symm.trans hs
      cases hd : s.dupMap k0 with
      | none =>
        have hlen : ¬ 2 ≤ (occs l k0).length := by
          intro hge
          have hx := hdup k0
          rw [hd, if_pos hge] at hx
          exact Option.noConfusion hx
        have hsingle : occs l k0 = [first] := by
          rcases ho : occs l k0 with _ | ⟨a, t⟩
          · rw [ho] at hhead; simp at hhead
          · rw [ho] at hhead hlen
            simp only [List.head?] at hhead
            injection hhead with hh
            subst hh
            rcases t with _ | ⟨b, t2⟩
            · rfl
            · exfalso
              apply hlen
              simp only [List.length_cons]
              omega
        have hk0notin : k0 ∉ s.dupKeys := fun hin => hlen ((hmem k0).1 hin)
        refine ⟨fun k => ?_, fun k => ?_, ?_, fun k => ?_⟩
        · rw [dupStep_snd_seen hk hs hd, hocc]
          by_cases hkk : k = k0
          · subst hkk; rw [hs, hsingle]; simp
          · simp [hkk, hseen k]
        · rw [dupStep_snd_dupMap hk hs hd k, hocc]
          by_cases hkk : k = k0
          · subst hkk; rw [hsingle]; simp
          · simp [hkk, hdup k]
        · rw [dupStep_snd_keys hk hs hd, List.nodup_append]
          have hdis : s.dupKeys.Disjoint [k0] := by
            intro x hx hx2
            rw [List.mem_singleton] at hx2
            subst hx2
            exact hk0notin hx
          exact ⟨hnd, List.nodup_singleton k0, hdis⟩
        · rw [dupStep_snd_keys hk hs hd, hocc, List.mem_append, hmem k]
          by_cases hkk : k = k0
          · subst hkk; rw [hsingle]; simp
          · simp [hkk]
      | some lst =>
        have hge : 2 ≤ (occs l k0).length ∧ lst = occs l k0 := by
          have hx := hdup k0
          rw [hd] at hx
          by_cases h2 : 2 ≤ (occs l k0).length
          · rw [if_pos h2] at hx
            exact ⟨h2, Option.some.inj hx⟩
          · rw [if_neg h2] at hx
            exact absurd hx (by simp)
        obtain ⟨a, t, hat⟩ : ∃ a t, occs l k0 = a :: t := by
          rcases ho : occs l k0 with _ | ⟨a, t⟩
          · rw [ho] at hge; simp at hge
          · exact ⟨a, t, rfl⟩
        refine ⟨fun k => ?_, fun k => ?_, ?_, fun k => ?_⟩
        · rw [dupStep_more_seen hk hs hd, hocc]
          by_cases hkk : k = k0
          · subst hkk
            rw [hs, hat]
            rw [hat] at hhead
            simp only [List.head?] at hhead
            simp only [List.cons_append, List.head?]
            exact hhead.symm
          · simp [hkk, hseen k]
        · rw [dupStep_more_dupMap hk hs hd k, hocc]
          by_cases hkk : k = k0
          · subst hkk
            have hlen2 : 2 ≤ (occs l k ++ [idx]).length := by
              rw [List.length_append]
              omega
            simp [hge.2, hlen2]
            have h1 := hge.1
            omega
          · simp [hkk, hdup k]
        · rw [dupStep_more_keys hk hs hd]; exact hnd
        · rw [dupStep_more_keys hk hs hd, hocc, hmem k]
          by_cases hkk : k = k0
          · subst hkk
            rw [if_pos rfl, List.length_append]
            constructor
            · intro _; omega
            · intro _; exact hge.1
          · simp [hkk]

theorem dupFold_inv (l2 : List (Nat × Invoice)) :
    ∀ (l1 : List (Nat × Invoice)) (s : DupState), DupInv l1 s →
      DupInv (l1 ++ l2) (l2.foldl (fun s p => dupStep s p.1 p.2) s) := by
  induction l2 with
  | nil => intro l1 s h; simpa using h
  | cons p l2 ih =>
    intro l1 s h
    have h1 : DupInv (l1 ++ [p]) (dupStep s p.1 p.2) := dupStep_inv h p.1 p.2
    have h2 := ih (l1 ++ [p]) (dupStep s p.1 p.2) h1
    simpa [List.append_assoc] using h2

theorem detect_duplicates_inv (invs : List Invoice) :
    DupInv (enumF 0 invs) (_detect_duplicates invs) := by
  have h := dupFold_inv (enumF 0 invs) [] initDupState dupInv_init
  simpa [_detect_duplicates] using h

/-! ### Batch result lemmas and batch claims -/

theorem enumF_length (l : List Invoice) : ∀ n, (enumF n l).length = l.length := by
  induction l with
  | nil => intro n; rfl
  | cons a as ih => intro n; simp [enumF, ih (n + 1)]

theorem enumF_get? (l : List Invoice) : ∀ n i : Nat,
    (enumF n l).get? i = (l.get? i).map (fun v => (n + i, v)) := by
  induction l with
  | nil => intro n i; simp [enumF]
  | cons a as ih =>
    intro n i
    cases i with
    | zero => simp [enumF]
    | succ j =>
      simp only [enumF, List.get?]
      rw [ih (n + 1) j]
      cases as.get? j <;> simp <;> omega

theorem validate_batch_length (pd : String → Option Int) (invs : List Invoice) :
    (validate_batch pd invs).per_invoice.length = invs.length := by
  simp [validate_batch, enumF_length]

theorem validate_batch_get? (pd : String → Option Int) (invs : List Invoice)
    (i : Nat) :
    (validate_batch pd invs).per_invoice.get? i =
      (invs.get? i).map (fun v => batchResultAt pd (_detect_duplicates invs) i v) := by
  simp only [validate_batch]
  rw [List.get?_map, enumF_get?]
  cases invs.get? i <;> simp

theorem batchResultAt_eq_or (pd : String → Option Int) (dm : DupState)
    (idx : Nat) (inv : Invoice) :
    batchResultAt pd dm idx inv = validate_invoice pd inv ∨
    batchResultAt pd dm idx inv =
      { validate_invoice pd inv with
        is_valid := false,
        errors := (validate_invoice pd inv).errors ++ ["anomaly:duplicate_invoice"] } := by
  rcases hk : dupKeyOf inv with _ | k
  · left; simp [batchResultAt, hk]
  · rcases hd : dm.dupMap k with _ | lst
    · left; simp [batchResultAt, hk, hd]
    · by_cases hmem : idx ∈ lst
      · right; simp [batchResultAt, hk, hd, hmem]
      · left; simp [batchResultAt, hk, hd, hmem]

/-- C5: `validate_batch` returns one result per input invoice and
preserves input order: `per_invoice` has the batch's length, and the entry
at index `i` is exactly the per-invoice loop body (single-invoice
validation plus duplicate adjustment) applied at index `i` to the input
record at index `i`. -/
theorem index_correspondence (pd : String → Option Int) (invs : List Invoice) :
    (validate_batch pd invs).per_invoice.length = invs.length ∧
    ∀ i inv, invs.get? i = some inv →
      (validate_batch pd invs).per_invoice.get? i =
        some (batchResultAt pd (_detect_duplicates invs) i inv) := by
  refine ⟨validate_batch_length pd invs, fun i inv h => ?_⟩
  rw [validate_batch_get?, h]
  rfl

/-- C5 witness: a one-element batch. -/
theorem index_correspondence_witness :
    (validate_batch pdNone [dupRec]).per_invoice.length = 1 ∧
    (validate_batch pdNone [dupRec]).per_invoice.get? 0 =
      some (batchResultAt pdNone (_detect_duplicates [dupRec]) 0 dupRec) :=
  ⟨(index_correspondence pdNone [dupRec]).1,
   (index_correspondence pdNone [dupRec]).2 0 dupRec rfl⟩

/-- C8: in every batch summary, `valid_count + invalid_count` equals
`total_invoices`, `total_invoices` is the batch length, and `valid_count`
counts the per-invoice results whose `is_valid` is true. -/
theorem validity_additive (pd : String → Option Int) (invs : List Invoice) :
    (validate_batch pd invs).summary.valid_count +
        (validate_batch pd invs).summary.invalid_count =
      (validate_batch pd invs).summary.total_invoices ∧
    (validate_batch pd invs).summary.total_invoices = invs.length ∧
    (validate_batch pd invs).summary.valid_count =
      (validate_batch pd invs).per_invoice.countP (fun r => r.is_valid) := by
  have hv : (validate_batch pd invs).summary.valid_count =
      (validate_batch pd invs).per_invoice.countP (fun r => r.is_valid) := rfl
  have hi : (validate_batch pd invs).summary.invalid_count =
      invs.length - (validate_batch pd invs).summary.valid_count := rfl
  have ht : (validate_batch pd invs).summary.total_invoices = invs.length := rfl
  have hle : (validate_batch pd invs).per_invoice.countP (fun r => r.is_valid) ≤
      invs.length := by
    have h1 := List.countP_le_length (fun r : ValidationResult => r.is_valid)
      (l := (validate_batch pd invs).per_invoice)
    rw [validate_batch_length pd invs] at h1
    exact h1
  refine ⟨?_, ht, hv⟩
  rw [hi, ht, hv]
  omega

theorem vocab_lift {e : String}
    (h : e ∈ ["missing_field:invoice_number", "missing_field:invoice_date",
      "missing_field:seller_name", "missing_field:buyer_name",
      "invalid_format:invoice_date", "invalid_value:currency",
      "business_rule:totals_mismatch", "business_rule:linesum_mismatch",
      "business_rule:due_before_invoice", "sanity:negative_gross"]) :
    e ∈ tokenVocab := by
  simp only [List.mem_cons, List.not_mem_nil, or_false] at h
  rcases h with h | h | h | h | h | h | h | h | h | h <;> subst h <;> decide

/-- C7: for every parser and every well-formed batch the engine returns a
complete result and never an exception (the embedding is a total
function): there is a per-invoice result for every input index, each
result's `is_valid` is exactly emptiness of its error list, and every
reported error is one of the fixed error tokens — field absence surfaces
only as tokens. -/
theorem no_exceptions_complete_result (pd : String → Option Int)
    (invs : List Invoice) :
    (validate_batch pd invs).per_invoice.length = invs.length ∧
    ∀ r ∈ (validate_batch pd invs).per_invoice,
      (r.is_valid = true ↔ r.errors = []) ∧ ∀ e ∈ r.errors, e ∈ tokenVocab := by
  refine ⟨validate_batch_length pd invs, fun r hr => ?_⟩
  simp only [validate_batch, List.mem_map] at hr
  obtain ⟨p, _, hp⟩ := hr
  rcases batchResultAt_eq_or pd (_detect_duplicates invs) p.1 p.2 with he | he
  · rw [← hp, he]
    exact ⟨validate_invoice_valid_iff pd p.2,
           fun e hee => vocab_lift (mem_validate_invoice hee)⟩
  · rw [← hp, he]
    constructor
    · simp
    · intro e hee
      simp only [List.mem_append, List.mem_singleton] at hee
      rcases hee with hee | hee
      · exact vocab_lift (mem_validate_invoice hee)
      · subst hee; decide

/-- C7 witness: the batch holding one empty record. -/
theorem no_exceptions_complete_result_witness :
    (validate_batch pdNone [{}]).per_invoice.length = 1 ∧
    (emptyBatchRes0.is_valid = true ↔ emptyBatchRes0.errors = []) ∧
    "missing_field:invoice_number" ∈ tokenVocab :=
  ⟨(no_exceptions_complete_result pdNone [{}]).1,
   ((no_exceptions_complete_result pdNone [{}]).2 emptyBatchRes0 (by decide)).1,
   ((no_exceptions_complete_result pdNone [{}]).2 emptyBatchRes0 (by decide)).2
     "missing_field:invoice_number" (by decide)⟩

/-- C1: duplicate flagging in `validate_batch`: an invoice whose
`invoice_number` is absent or empty never receives
`anomaly:duplicate_invoice`; and whenever an invoice's duplicate key
`(str(invoice_number), str(supplier_tax_id or seller_tax_id or ''),
str(invoice_date or ''))` is shared by at least two invoices of the batch,
that invoice's result (every member, the first occurrence included)
carries the token and its `is_valid` is false. -/
theorem duplicate_flagging (pd : String → Option Int) (invs : List Invoice)
    (i : Nat) (inv : Invoice) (hi : invs.get? i = some inv)
    (r : ValidationResult)
    (hr : (validate_batch pd invs).per_invoice.get? i = some r) :
    (truthyS inv.invoice_number = false →
      "anomaly:duplicate_invoice" ∉ r.errors) ∧
    (∀ k, dupKeyOf inv = some k → 2 ≤ keyCount invs k →
      "anomaly:duplicate_invoice" ∈ r.errors ∧ r.is_valid = false) := by
  rw [validate_batch_get?, hi] at hr
  have hreq : r = batchResultAt pd (_detect_duplicates invs) i inv :=
    (Option.some.inj hr).symm
  subst hreq
  constructor
  · intro hf
    have hknone : dupKeyOf inv = none := by simp [dupKeyOf, hf]
    simp only [batchResultAt, hknone]
    exact dup_notMem_validate_invoice pd inv
  · intro k hk hcount
    have hinv := detect_duplicates_inv invs
    have hlen : 2 ≤ (occs (enumF 0 invs) k).length := by
      rw [occs_enumF_length]
      exact hcount
    have hdm : (_detect_duplicates invs).dupMap k =
        some (occs (enumF 0 invs) k) := by
      rw [hinv.dup_eq k, if_pos hlen]
    have hmemi : i ∈ occs (enumF 0 invs) k := by
      have h := mem_occs_enumF invs 0 i inv hi hk
      simpa using h
    simp only [batchResultAt, hk, hdm]
    rw [if_pos hmemi]
    exact ⟨by simp, rfl⟩

/-- C1 witness: a batch of two identical invoices, at index 0. -/
theorem duplicate_flagging_witness :
    "anomaly:duplicate_invoice" ∈ dupRecResult0.errors ∧
    dupRecResult0.is_valid = false :=
  (duplicate_flagging pdNone [dupRec, dupRec] 0 dupRec rfl dupRecResult0
    (by decide)).2 ("INV-1", "TAX1", "2024-01-01") (by decide) (by decide)

/-- C4: `duplicate_groups` counts distinct duplicate keys, not duplicate
records: for every parser and batch it equals the number of distinct keys
shared by at least two invoices, and for the concrete batch of three
identical invoices it is 1 while `error_counts` of the duplicate token is
3. -/
theorem duplicate_groups_spec :
    (∀ (pd : String → Option Int) (invs : List Invoice),
      (validate_batch pd invs).summary.duplicate_groups =
        specDuplicateGroups invs) ∧
    (validate_batch pdNone [dupRec, dupRec, dupRec]).summary.duplicate_groups
      = 1 ∧
    (validate_batch pdNone [dupRec, dupRec, dupRec]).summary.error_counts
      "anomaly:duplicate_invoice" = 3 := by
  refine ⟨fun pd invs => ?_, by decide, by decide⟩
  have hinv := detect_duplicates_inv invs
  have hgroups : (validate_batch pd invs).summary.duplicate_groups =
      (_detect_duplicates invs).dupKeys.length := rfl
  rw [hgroups]
  have hLnodup : ((invs.filterMap dupKeyOf).dedup.filter
      (fun k => decide (2 ≤ keyCount invs k))).Nodup :=
    (List.nodup_dedup _).filter _
  have hmemL : ∀ k, k ∈ (_detect_duplicates invs).dupKeys ↔
      k ∈ (invs.filterMap dupKeyOf).dedup.filter
        (fun k => decide (2 ≤ keyCount invs k)) := by
    intro k
    rw [hinv.mem_keys k, occs_enumF_length]
    simp only [List.mem_filter, List.mem_dedup, List.mem_filterMap,
      decide_eq_true_eq]
    constructor
    · intro h2
      refine ⟨?_, h2⟩
      have hpos : 0 < invs.countP (fun i => decide (dupKeyOf i = some k)) := by
        have : keyCount invs k = invs.countP (fun i => decide (dupKeyOf i = some k)) := rfl
        rw [this] at h2
        omega
      obtain ⟨a, ha, hpa⟩ := List.countP_pos_iff.1 hpos
      exact ⟨a, ha, of_decide_eq_true hpa⟩
    · rintro ⟨_, h2⟩
      exact h2
  have hperm := (List.perm_ext_iff_of_nodup hinv.keys_nodup hLnodup).2 hmemL
  exact hperm.length_eq

end InvoiceQC
